import Mathlib

/-!
# Verification of the rune playback engine and library subsystems

Shallow embedding of the rune media-library application, covering:

* the playback engine (`src/playback/src/internal.rs`, `PlayerInternal`):
  playlist management, track cursor, sink lifecycle, command handlers;
* the analysis batch-size computation (`src/native/hub/src/library_manage.rs`,
  `determine_batch_size`);
* the search-index term maintenance (`src/database/src/actions/search.rs`,
  `add_term` / `remove_term`);
* aggregation of analysis rows (`src/database/src/actions/analysis.rs`,
  `get_centralized_analysis_result`);
* the memoized file CRC (`src/metadata/src/describe.rs`,
  `FileDescription::get_crc`).

Machine floats become rationals, machine integers become `Nat`/`Int` with
explicit truncation where the source relies on wrapping, fallible operations
return `Option`, and panics (`unwrap` on `None`, out-of-bounds `Vec`
indexing) are an explicit `Outcome.panic` constructor.  Environment queries
(file opens, decoder results, sink position and emptiness) are oracle inputs.
-/

namespace Rune

/-! ## Playback engine: data model (src/playback/src/internal.rs) -/

/-- An entry of the engine's playlist (`PlaylistItem`): a track id (i32) and
its file path. -/
structure PlaylistItem where
  id : Int
  path : String
deriving DecidableEq

/-- `InternalPlaybackState`: the engine state machine. -/
inductive InternalPlaybackState
  | playing
  | paused
  | stopped
deriving DecidableEq

/-- Result of the environment when the engine opens and decodes a file during
`load`: `File::open` fails (`openFailed`), `Decoder::new` fails
(`decodeFailed`), or both succeed (`ok`). -/
inductive FileOutcome
  | ok
  | openFailed
  | decodeFailed
deriving DecidableEq

/-- The mutable fields of `PlayerInternal` that the command handlers touch.
The sink and the output stream are tracked only by presence: all the
handlers ever ask of them is whether they exist (queries such as
`sink.get_pos()` and `sink.empty()` are oracle inputs of the respective
handler). -/
structure PlayerState where
  playlist : List PlaylistItem
  current_track_id : Option Int
  current_track_index : Option Nat
  current_track_path : Option String
  sink : Option Unit
  stream : Option Unit
  state : InternalPlaybackState
  debounce_timer : Option Unit
deriving DecidableEq

/-- Events on the outbound event channel (`PlayerEvent`).  Durations are
represented as natural numbers. -/
inductive PlayerEvent
  | stopped
  | playing (id : Int) (index : Nat) (path : String) (position : Nat)
  | paused (id : Int) (index : Nat) (path : String) (position : Nat)
  | endOfPlaylist
  | endOfTrack (id : Int) (index : Nat) (path : String)
  | error (id : Int) (index : Nat) (path : String) (message : String)
  | progress (id : Int) (index : Nat) (path : String) (position : Nat)
  | playlistUpdated (ids : List Int)
  | realtimeFFT (data : List Int)
deriving DecidableEq

/-- Result of running one handler: a normal return with the new state and the
events sent, a panic (`unwrap` of `None` or out-of-bounds indexing; events
already sent before the panic are preserved), or divergence (the unbounded
`play` → `load` → `play` recursion). -/
inductive Outcome
  | ok (s : PlayerState) (events : List PlayerEvent)
  | panic (events : List PlayerEvent)
  | diverge (events : List PlayerEvent)
deriving DecidableEq

/-- Sequencing of handler fragments: events already emitted are kept in front
of whatever the continuation produces. -/
def Outcome.andThen (o : Outcome) (f : PlayerState → Outcome) : Outcome :=
  match o with
  | .ok s evs =>
    match f s with
    | .ok s' evs' => .ok s' (evs ++ evs')
    | .panic evs' => .panic (evs ++ evs')
    | .diverge evs' => .diverge (evs ++ evs')
  | .panic evs => .panic evs
  | .diverge evs => .diverge evs

/-- The state of `PlayerInternal::new`: empty playlist, no cursor, no sink,
`Stopped`, no pending debounce. -/
def initialState : PlayerState :=
  { playlist := []
    current_track_id := none
    current_track_index := none
    current_track_path := none
    sink := none
    stream := none
    state := .stopped
    debounce_timer := none }

/-! ## Playback engine: command handlers -/

/-- `PlayerInternal::load`.  `let item = &self.playlist[index]` panics when
`index` is out of bounds.  On success a fresh sink and stream are installed,
the cursor and the cached id/path are set, `Playing(position = 0)` is sent
and the state becomes `Playing`.  On an open or decode failure the handler
sends `Error { id: self.current_track_id.unwrap(), .. }` — a panic when no
track was ever loaded — and the state becomes `Stopped` (the old sink, if
any, is left in place). -/
def load (fs : String → FileOutcome) (s : PlayerState) : Option Nat → Outcome
  | some index =>
    if h : index < s.playlist.length then
      let item := s.playlist.get ⟨index, h⟩
      match fs item.path with
      | .ok =>
        .ok { s with
                sink := some ()
                stream := some ()
                current_track_index := some index
                current_track_id := some item.id
                current_track_path := some item.path
                state := .playing }
          [.playing item.id index item.path 0]
      | .decodeFailed =>
        match s.current_track_id with
        | some id =>
          .ok { s with state := .stopped }
            [.error id index item.path "Failed to decode audio"]
        | none => .panic []
      | .openFailed =>
        match s.current_track_id with
        | some id =>
          .ok { s with state := .stopped }
            [.error id index item.path "Failed to open file"]
        | none => .panic []
    else
      .panic []
  | none => .ok s []

/-- `PlayerInternal::play`.  With a sink: resume, send `Playing`, go to
`Playing` (unwrapping the cached id/index/path).  Without a sink: `load(0)`
then `play()` again; if the reload still leaves no sink the recursion never
terminates. -/
def play (fs : String → FileOutcome) (s : PlayerState) : Outcome :=
  match s.sink with
  | some _ =>
    match s.current_track_id, s.current_track_index, s.current_track_path with
    | some id, some index, some path =>
      .ok { s with state := .playing } [.playing id index path 0]
    | _, _, _ => .panic []
  | none =>
    (load fs s (some 0)).andThen fun s' =>
      match s'.sink with
      | some _ =>
        match s'.current_track_id, s'.current_track_index, s'.current_track_path with
        | some id, some index, some path =>
          .ok { s' with state := .playing } [.playing id index path 0]
        | _, _, _ => .panic []
      | none => .diverge []

/-- `PlayerInternal::pause`; `pos` is the oracle value of `sink.get_pos()`. -/
def pause (s : PlayerState) (pos : Nat) : Outcome :=
  match s.sink with
  | some _ =>
    match s.current_track_id, s.current_track_index, s.current_track_path with
    | some id, some index, some path =>
      .ok { s with state := .paused } [.paused id index path pos]
    | _, _, _ => .panic []
  | none => .ok s []

/-- `PlayerInternal::stop`: takes the sink (dropping it), sends `Stopped`,
state becomes `Stopped`; without a sink it only warns. -/
def stop (s : PlayerState) : Outcome :=
  match s.sink with
  | some _ => .ok { s with sink := none, state := .stopped } [.stopped]
  | none => .ok s []

/-- `PlayerInternal::next`: with a cursor and a following item, set the
cursor and load it; at the end of the playlist send `EndOfPlaylist` and stop
(the sink is not dropped); without a cursor, warn only. -/
def next (fs : String → FileOutcome) (s : PlayerState) : Outcome :=
  match s.current_track_index with
  | some index =>
    if index + 1 < s.playlist.length then
      load fs { s with current_track_index := some (index + 1) } (some (index + 1))
    else
      .ok { s with state := .stopped } [.endOfPlaylist]
  | none => .ok s []

/-- `PlayerInternal::previous`. -/
def previous (fs : String → FileOutcome) (s : PlayerState) : Outcome :=
  match s.current_track_index with
  | some index =>
    if index > 0 then
      load fs { s with current_track_index := some (index - 1) } (some (index - 1))
    else
      .ok s []
  | none => .ok s []

/-- `PlayerInternal::switch`.  The source guard is
`index > 0 || index < self.playlist.length()` — a disjunction, not a bounds
check — so every positive index passes the guard and reaches `load`. -/
def switch (fs : String → FileOutcome) (s : PlayerState) (index : Nat) : Outcome :=
  if index > 0 ∨ index < s.playlist.length then
    load fs { s with current_track_index := some index } (some index)
  else
    .ok s []

/-- `PlayerInternal::seek`; `seekOk` is the oracle result of
`sink.try_seek`, `obsPos` the oracle value of `sink.get_pos()` afterwards. -/
def seek (s : PlayerState) (_position : Nat) (seekOk : Bool) (obsPos : Nat) : Outcome :=
  match s.sink with
  | some _ =>
    if seekOk then
      match s.current_track_id, s.current_track_index, s.current_track_path with
      | some id, some index, some path =>
        .ok { s with state := .playing } [.playing id index path obsPos]
      | _, _, _ => .panic []
    else
      .ok s []
  | none => .ok s []

/-- `PlayerInternal::schedule_playlist_update`: arm the 60 ms trailing-edge
debounce timer (presence only; the deadline value is irrelevant here). -/
def schedule_playlist_update (s : PlayerState) : PlayerState :=
  { s with debounce_timer := some () }

/-- `PlayerInternal::add_to_playlist`. -/
def add_to_playlist (s : PlayerState) (id : Int) (path : String) : Outcome :=
  .ok (schedule_playlist_update { s with playlist := s.playlist ++ [⟨id, path⟩] }) []

/-- `PlayerInternal::remove_from_playlist`: in bounds, remove the item and
schedule the debounced update; the cursor is not adjusted.  Out of bounds it
only logs. -/
def remove_from_playlist (s : PlayerState) (index : Nat) : Outcome :=
  if index < s.playlist.length then
    .ok (schedule_playlist_update { s with playlist := s.playlist.eraseIdx index }) []
  else
    .ok s []

/-- `PlayerInternal::clear_playlist`: empties the playlist, clears the
cursor, drops sink and stream, sends `Stopped`, schedules the debounced
update and stops.  (`current_track_id` and `current_track_path` are not
cleared.) -/
def clear_playlist (s : PlayerState) : Outcome :=
  .ok (schedule_playlist_update
        { s with
            playlist := []
            current_track_index := none
            sink := none
            stream := none
            state := .stopped })
    [.stopped]

/-- `PlayerInternal::move_playlist_item`: out-of-bounds or equal indices are
logged no-ops; otherwise `Vec::remove(old_index)` then
`Vec::insert(new_index, item)` and the cursor adjustment from the source. -/
def move_playlist_item (s : PlayerState) (old_index new_index : Nat) : Outcome :=
  if h : s.playlist.length ≤ old_index ∨ s.playlist.length ≤ new_index then
    .ok s []
  else if old_index = new_index then
    .ok s []
  else
    have hold : old_index < s.playlist.length := by
      rcases not_or.mp h with ⟨h1, _⟩
      omega
    let item := s.playlist.get ⟨old_index, hold⟩
    let playlist' := (s.playlist.eraseIdx old_index).insertIdx new_index item
    let cursor' : Option Nat :=
      match s.current_track_index with
      | some current_index =>
        if old_index = current_index then
          some new_index
        else if old_index < current_index ∧ new_index ≥ current_index then
          some (current_index - 1)
        else if old_index > current_index ∧ new_index ≤ current_index then
          some (current_index + 1)
        else
          some current_index
      | none => none
    .ok (schedule_playlist_update
          { s with playlist := playlist', current_track_index := cursor' }) []

/-- `PlayerInternal::send_progress` (the body of the 100 ms tick once the
state is not `Stopped`): with a sink whose queue has drained, send
`EndOfTrack` and, the state still not being `Stopped`, run `next`; with a
live sink send `Progress`.  `sink_empty` and `pos` are oracle values of
`sink.empty()` and `sink.get_pos()`. -/
def send_progress (fs : String → FileOutcome) (s : PlayerState)
    (sink_empty : Bool) (pos : Nat) : Outcome :=
  match s.sink with
  | some _ =>
    if sink_empty then
      match s.current_track_id, s.current_track_index, s.current_track_path with
      | some id, some index, some path =>
        (Outcome.ok s [.endOfTrack id index path]).andThen fun s1 =>
          if s1.state ≠ .stopped then next fs s1 else .ok s1 []
      | _, _, _ => .panic []
    else
      match s.current_track_id, s.current_track_index, s.current_track_path with
      | some id, some index, some path => .ok s [.progress id index path pos]
      | _, _, _ => .panic []
  | none => .ok s []

/-- The progress-tick arm of `run`: `send_progress` only when the state is
not `Stopped`. -/
def tick (fs : String → FileOutcome) (s : PlayerState)
    (sink_empty : Bool) (pos : Nat) : Outcome :=
  if s.state ≠ .stopped then send_progress fs s sink_empty pos else .ok s []

/-- The debounce arm of `run`: when the timer is armed and expires, clear it
and send `PlaylistUpdated` with the id projection of the playlist. -/
def debounce_fire (s : PlayerState) : Outcome :=
  match s.debounce_timer with
  | some _ =>
    .ok { s with debounce_timer := none }
      [.playlistUpdated (s.playlist.map (·.id))]
  | none => .ok s []

/-- One readiness event of the `run` loop: a command (with the oracle data
the handler will query from the environment), a progress tick, a debounce
expiry, or an FFT snapshot. -/
inductive Input
  | cmdLoad (index : Nat)
  | cmdPlay
  | cmdPause (pos : Nat)
  | cmdStop
  | cmdNext
  | cmdPrevious
  | cmdSwitch (index : Nat)
  | cmdSeek (position : Nat) (seekOk : Bool) (obsPos : Nat)
  | cmdAddToPlaylist (id : Int) (path : String)
  | cmdRemoveFromPlaylist (index : Nat)
  | cmdClearPlaylist
  | cmdMovePlayListItem (old_index new_index : Nat)
  | tickProgress (sink_empty : Bool) (pos : Nat)
  | debounceExpired
  | fftSnapshot (data : List Int)
deriving DecidableEq

/-- Dispatch of one readiness event, mirroring the `select!` arms and the
command `match` of `PlayerInternal::run`. -/
def step (fs : String → FileOutcome) (s : PlayerState) : Input → Outcome
  | .cmdLoad index => load fs s (some index)
  | .cmdPlay => play fs s
  | .cmdPause pos => pause s pos
  | .cmdStop => stop s
  | .cmdNext => next fs s
  | .cmdPrevious => previous fs s
  | .cmdSwitch index => switch fs s index
  | .cmdSeek position seekOk obsPos => seek s position seekOk obsPos
  | .cmdAddToPlaylist id path => add_to_playlist s id path
  | .cmdRemoveFromPlaylist index => remove_from_playlist s index
  | .cmdClearPlaylist => clear_playlist s
  | .cmdMovePlayListItem old_index new_index => move_playlist_item s old_index new_index
  | .tickProgress sink_empty pos => tick fs s sink_empty pos
  | .debounceExpired => debounce_fire s
  | .fftSnapshot data => .ok s [.realtimeFFT data]

/-- Run the loop over a list of readiness events, stopping at a panic. -/
def runInputs (fs : String → FileOutcome) (s : PlayerState) : List Input → Outcome
  | [] => .ok s []
  | inp :: rest => (step fs s inp).andThen fun s' => runInputs fs s' rest

/-! ## Playback engine: invariant predicates -/

/-- The cursor bound of spec §8 invariant 1: if the track cursor is set it is
a valid playlist index. -/
def cursorOk (s : PlayerState) : Bool :=
  match s.current_track_index with
  | none => true
  | some c => decide (c < s.playlist.length)

/-- The sink half of spec §8 invariant 2: `Playing` implies a sink exists. -/
def playingHasSink (s : PlayerState) : Bool :=
  match s.state with
  | .playing => s.sink.isSome
  | _ => true

/-- Inputs other than `RemoveFromPlaylist`. -/
def isRemoveCmd : Input → Bool
  | .cmdRemoveFromPlaylist _ => true
  | _ => false

/-- The cursor-adjustment rule as spec §4.1.1 states it. -/
def adjustedCursor (old_index new_index c : Nat) : Nat :=
  if old_index = c then new_index
  else if old_index < c ∧ new_index ≥ c then c - 1
  else if old_index > c ∧ new_index ≤ c then c + 1
  else c

/-- The playlist item the cursor denotes, when both exist. -/
def currentItem (s : PlayerState) : Option PlaylistItem :=
  s.current_track_index.bind fun c => s.playlist[c]?

/-- The state after `move_playlist_item` (which never panics and sends no
events). -/
def moveState (s : PlayerState) (old_index new_index : Nat) : PlayerState :=
  match move_playlist_item s old_index new_index with
  | .ok s' _ => s'
  | _ => s

/-- The `Error` message the `load` failure arms produce. -/
def failureMessage : FileOutcome → String
  | .openFailed => "Failed to open file"
  | .decodeFailed => "Failed to decode audio"
  | .ok => ""

/-- Environment in which every file opens and decodes. -/
def fsAllOk : String → FileOutcome := fun _ => .ok

/-- Environment in which every `File::open` fails. -/
def fsAllOpenFail : String → FileOutcome := fun _ => .openFailed

/-! ## Analysis batcher: batch size (src/native/hub/src/library_manage.rs) -/

/-- `determine_batch_size`; `num_cores` is the oracle value of
`num_cpus::get()`.  Note the integer division happens before the doubling. -/
def determine_batch_size (num_cores : Nat) : Nat :=
  let batch_size := num_cores / 3 * 2
  let min_batch_size := 1
  let max_batch_size := 1000
  min (max batch_size min_batch_size) max_batch_size

/-! ## Search index: term maintenance (src/database/src/actions/search.rs) -/

/-- `CollectionType`, in its declaration order. -/
inductive CollectionType
  | track
  | artist
  | directory
  | album
  | playlist
deriving DecidableEq

/-- `From<CollectionType> for i64` (note Album ↦ 2, Directory ↦ 3). -/
def collectionTypeToI64 : CollectionType → Int
  | .track => 0
  | .artist => 1
  | .album => 2
  | .directory => 3
  | .playlist => 4

/-- The derived `Debug` rendering of a `CollectionType` value. -/
def collectionTypeDebugStr : CollectionType → String
  | .track => "Track"
  | .artist => "Artist"
  | .directory => "Directory"
  | .album => "Album"
  | .playlist => "Playlist"

/-- A tantivy schema field handle (`Field` wraps a `u32`); its derived
`Debug` rendering is `Field(i)`. -/
structure TantivyField where
  idx : Nat
deriving DecidableEq

/-- `format!("{:?}", field)` for a field handle. -/
def fieldDebugStr (f : TantivyField) : String :=
  "Field(" ++ toString f.idx ++ ")"

/-- The five field handles `schema.get_field` returns for the search schema. -/
structure SearchSchema where
  name : TantivyField
  latinization : TantivyField
  id : TantivyField
  type : TantivyField
  tid : TantivyField

/-- A document of the search index, with the fields `add_term` writes. -/
structure SearchDoc where
  name : String
  latinization : String
  type : Int
  tid : String
  id : Int
deriving DecidableEq

/-- `IndexWriter::delete_term` on the `tid` field: drops every document
whose `tid` equals the given term. -/
def delete_term_docs (docs : List SearchDoc) (tid : String) : List SearchDoc :=
  docs.filter fun d => d.tid != tid

/-- `remove_term`: deletes by `tid = format!("{:?}-{:?}", r#type, id)`. -/
def remove_term (docs : List SearchDoc) (t : CollectionType) (id : Int) : List SearchDoc :=
  let tid := collectionTypeDebugStr t ++ "-" ++ toString id
  delete_term_docs docs tid

/-- `add_term`: the source computes
`format!("{:?}-{:?}", term_type, term_id)` from the *field handles*
`term_type = schema.get_field("type")` and `term_id = schema.get_field("id")`
— not from the `r#type` and `id` arguments — deletes by that string, and
inserts the document (whose stored `tid` is the same string). -/
def add_term (deunicodeFn : String → String) (schema : SearchSchema)
    (docs : List SearchDoc) (t : CollectionType) (id : Int) (name : String) :
    List SearchDoc :=
  let term_type := schema.type
  let term_id := schema.id
  let tid := fieldDebugStr term_type ++ "-" ++ fieldDebugStr term_id
  let docs' := delete_term_docs docs tid
  docs' ++ [{ name := name
              latinization := deunicodeFn name
              type := collectionTypeToI64 t
              tid := tid
              id := id }]

/-- A concrete schema whose handles were registered in the builder order
name, latinization, id, type, tid. -/
def schemaFixture : SearchSchema :=
  { name := ⟨0⟩, latinization := ⟨1⟩, id := ⟨2⟩, type := ⟨3⟩, tid := ⟨4⟩ }

/-! ## Analysis aggregation (src/database/src/actions/analysis.rs) -/

/-- One row of the `media_analysis` table as selected by
`get_centralized_analysis_result` (floating-point columns become rationals,
nullable columns become `Option`). -/
structure MediaAnalysisModel where
  file_id : Int
  spectral_centroid : Option ℚ
  spectral_flatness : Option ℚ
  spectral_slope : Option ℚ
  spectral_rolloff : Option ℚ
  spectral_spread : Option ℚ
  spectral_skewness : Option ℚ
  spectral_kurtosis : Option ℚ
  chroma0 : Option ℚ
  chroma1 : Option ℚ
  chroma2 : Option ℚ
  chroma3 : Option ℚ
  chroma4 : Option ℚ
  chroma5 : Option ℚ
  chroma6 : Option ℚ
  chroma7 : Option ℚ
  chroma8 : Option ℚ
  chroma9 : Option ℚ
  chroma10 : Option ℚ
  chroma11 : Option ℚ

/-- `AggregatedAnalysisResult`. -/
structure AggregatedAnalysisResult where
  spectral_centroid : ℚ
  spectral_flatness : ℚ
  spectral_slope : ℚ
  spectral_rolloff : ℚ
  spectral_spread : ℚ
  spectral_skewness : ℚ
  spectral_kurtosis : ℚ
  chromagram : Fin 12 → ℚ

/-- The row's chroma columns as a vector (`result.chroma0` … `chroma11`). -/
def chromaAt (r : MediaAnalysisModel) : Fin 12 → Option ℚ :=
  ![r.chroma0, r.chroma1, r.chroma2, r.chroma3, r.chroma4, r.chroma5,
    r.chroma6, r.chroma7, r.chroma8, r.chroma9, r.chroma10, r.chroma11]

/-- The sum update of the `process_field!` / `process_chromagram!` macros. -/
def fieldSum (v : Option ℚ) (s : ℚ) : ℚ :=
  match v with
  | some value => s + value
  | none => s

/-- The count update of the `process_field!` / `process_chromagram!` macros. -/
def fieldCount (v : Option ℚ) (c : ℚ) : ℚ :=
  match v with
  | some _ => c + 1
  | none => c

/-- The loop body of `get_centralized_analysis_result`: one row updates each
sum/count component independently. -/
def processResult (sum count : AggregatedAnalysisResult) (r : MediaAnalysisModel) :
    AggregatedAnalysisResult × AggregatedAnalysisResult :=
  ({ spectral_centroid := fieldSum r.spectral_centroid sum.spectral_centroid
     spectral_flatness := fieldSum r.spectral_flatness sum.spectral_flatness
     spectral_slope := fieldSum r.spectral_slope sum.spectral_slope
     spectral_rolloff := fieldSum r.spectral_rolloff sum.spectral_rolloff
     spectral_spread := fieldSum r.spectral_spread sum.spectral_spread
     spectral_skewness := fieldSum r.spectral_skewness sum.spectral_skewness
     spectral_kurtosis := fieldSum r.spectral_kurtosis sum.spectral_kurtosis
     chromagram := fun i => fieldSum (chromaAt r i) (sum.chromagram i) },
   { spectral_centroid := fieldCount r.spectral_centroid count.spectral_centroid
     spectral_flatness := fieldCount r.spectral_flatness count.spectral_flatness
     spectral_slope := fieldCount r.spectral_slope count.spectral_slope
     spectral_rolloff := fieldCount r.spectral_rolloff count.spectral_rolloff
     spectral_spread := fieldCount r.spectral_spread count.spectral_spread
     spectral_skewness := fieldCount r.spectral_skewness count.spectral_skewness
     spectral_kurtosis := fieldCount r.spectral_kurtosis count.spectral_kurtosis
     chromagram := fun i => fieldCount (chromaAt r i) (count.chromagram i) })

/-- The all-zero accumulator both `sum` and `count` start from. -/
def zeroAggregate : AggregatedAnalysisResult :=
  { spectral_centroid := 0
    spectral_flatness := 0
    spectral_slope := 0
    spectral_rolloff := 0
    spectral_spread := 0
    spectral_skewness := 0
    spectral_kurtosis := 0
    chromagram := fun _ => 0 }

/-- The returned struct: the `calculate_mean!` / `calculate_chromagram_mean!`
expansion applied to the accumulated sums and counts. -/
def finalizeAggregate (sum count : AggregatedAnalysisResult) : AggregatedAnalysisResult :=
  { spectral_centroid :=
      if count.spectral_centroid > 0 then sum.spectral_centroid / count.spectral_centroid else 0
    spectral_flatness :=
      if count.spectral_flatness > 0 then sum.spectral_flatness / count.spectral_flatness else 0
    spectral_slope :=
      if count.spectral_slope > 0 then sum.spectral_slope / count.spectral_slope else 0
    spectral_rolloff :=
      if count.spectral_rolloff > 0 then sum.spectral_rolloff / count.spectral_rolloff else 0
    spectral_spread :=
      if count.spectral_spread > 0 then sum.spectral_spread / count.spectral_spread else 0
    spectral_skewness :=
      if count.spectral_skewness > 0 then sum.spectral_skewness / count.spectral_skewness else 0
    spectral_kurtosis :=
      if count.spectral_kurtosis > 0 then sum.spectral_kurtosis / count.spectral_kurtosis else 0
    chromagram := fun i =>
      if count.chromagram i > 0 then sum.chromagram i / count.chromagram i else 0 }

/-- `get_centralized_analysis_result` on the rows the file-id filter
selected. -/
def get_centralized_analysis_result (rows : List MediaAnalysisModel) :
    AggregatedAnalysisResult :=
  let sc := rows.foldl (fun acc r => processResult acc.1 acc.2 r)
    (zeroAggregate, zeroAggregate)
  finalizeAggregate sc.1 sc.2

/-- The nineteen aggregated components (seven spectral descriptors and the
twelve chroma bins), used to state one property uniformly. -/
inductive AnalysisField
  | centroid
  | flatness
  | slope
  | rolloff
  | spread
  | skewness
  | kurtosis
  | chroma (i : Fin 12)

/-- The row column an `AnalysisField` reads. -/
def rowField : AnalysisField → MediaAnalysisModel → Option ℚ
  | .centroid, r => r.spectral_centroid
  | .flatness, r => r.spectral_flatness
  | .slope, r => r.spectral_slope
  | .rolloff, r => r.spectral_rolloff
  | .spread, r => r.spectral_spread
  | .skewness, r => r.spectral_skewness
  | .kurtosis, r => r.spectral_kurtosis
  | .chroma i, r => chromaAt r i

/-- The aggregate component an `AnalysisField` reads. -/
def aggField : AnalysisField → AggregatedAnalysisResult → ℚ
  | .centroid, a => a.spectral_centroid
  | .flatness, a => a.spectral_flatness
  | .slope, a => a.spectral_slope
  | .rolloff, a => a.spectral_rolloff
  | .spread, a => a.spectral_spread
  | .skewness, a => a.spectral_skewness
  | .kurtosis, a => a.spectral_kurtosis
  | .chroma i, a => a.chromagram i

/-- Arithmetic mean of a list of rationals, `0` for the empty list. -/
def meanOrZero (l : List ℚ) : ℚ :=
  if l.length = 0 then 0 else l.sum / l.length

/-! ## File description CRC (src/metadata/src/describe.rs) -/

/-- `FileDescription` (paths as forward-slash strings). -/
structure FileDescription where
  root_path : String
  rel_path : String
  full_path : String
  file_name : String
  directory : String
  extension : String
  file_hash : Option String
  last_modified : String
deriving DecidableEq

/-- `CHUNK_SIZE`: 400 KiB. -/
def CHUNK_SIZE : Nat := 1024 * 400

/-- The read loop of `get_crc`: fold `media_crc32` over the file body in
`CHUNK_SIZE` pieces.  `crcfn chunk crc offset len` stands for
`media_crc32(&buffer, crc, offset, len)`; its `u32` result is truncated
to 32 bits. -/
def chunkedCrc (crcfn : List Nat → Nat → Nat → Nat → Nat)
    (content : List Nat) (crc : Nat) : Nat :=
  if content.isEmpty then crc
  else
    chunkedCrc crcfn (content.drop CHUNK_SIZE)
      (crcfn (content.take CHUNK_SIZE) crc 0 (content.take CHUNK_SIZE).length % 2 ^ 32)
termination_by content.length
decreasing_by
  rename_i hne
  have hpos : 0 < content.length := by
    cases content with
    | nil => simp at hne
    | cons a l => simp
  simp only [List.length_drop, CHUNK_SIZE]
  omega

/-- One hex digit, lowercase (`Nat.digitChar` is `'0'`–`'9'`, `'a'`–`'f'`
below 16). -/
def isLowerHexDigit (c : Char) : Bool :=
  decide (('0' ≤ c ∧ c ≤ '9') ∨ ('a' ≤ c ∧ c ≤ 'f'))

/-- Most-significant-first hex digits of `n` accumulated onto `acc`. -/
def toHexCore (n : Nat) (acc : List Char) : List Char :=
  if n = 0 then acc else toHexCore (n / 16) (Nat.digitChar (n % 16) :: acc)
termination_by n
decreasing_by
  rename_i hne
  exact Nat.div_lt_self (Nat.pos_of_ne_zero hne) (by norm_num)

/-- The digits `{:x}` would print. -/
def toHexDigits (n : Nat) : List Char :=
  if n = 0 then ['0'] else toHexCore n []

/-- `format!("{:08x}", n)`: lowercase hex, zero-padded on the left to eight
characters. -/
def formatHex8 (n : Nat) : String :=
  ⟨List.replicate (8 - (toHexDigits n).length) '0' ++ toHexDigits n⟩

/-- `self.root_path.join(&self.directory).join(&self.file_name)` with
forward-slash separators. -/
def full_path_of (d : FileDescription) : String :=
  d.root_path ++ "/" ++ d.directory ++ "/" ++ d.file_name

/-- `FileDescription::get_crc`.  `fs` maps a path to the file body
(`none` when `File::open` fails), `crcfn` is `media_crc32`.  Returns the
`Result` (as an `Option`) paired with the updated description, and the
number of file opens the call performed. -/
def get_crc (fs : String → Option (List Nat))
    (crcfn : List Nat → Nat → Nat → Nat → Nat) (d : FileDescription) :
    Option (String × FileDescription) × Nat :=
  match d.file_hash with
  | none =>
    match fs (full_path_of d) with
    | none => (none, 1)
    | some content =>
      let result := formatHex8 (chunkedCrc crcfn content 0)
      ((some (result, { d with file_hash := some result }), 1))
  | some h => (some (h, d), 0)

/-- A concrete fixture for `get_crc_memoized`. -/
def fileFixture : FileDescription :=
  { root_path := "root"
    rel_path := "dir/song.flac"
    full_path := "root/dir/song.flac"
    file_name := "song.flac"
    directory := "dir"
    extension := "flac"
    file_hash := none
    last_modified := "0" }

/-! ## Theorems -/

theorem load_oob {fs : String → FileOutcome} {s : PlayerState} {index : Nat}
    (h : ¬ index < s.playlist.length) : load fs s (some index) = .panic [] := by
  simp [load, h]

theorem cursorOk_load {fs : String → FileOutcome} {s : PlayerState} {oidx : Option Nat}
    {s' : PlayerState} {evs : List PlayerEvent}
    (hc : cursorOk s = true) (h : load fs s oidx = .ok s' evs) : cursorOk s' = true := by
  match oidx with
  | none =>
    simp only [load, Outcome.ok.injEq] at h
    obtain ⟨rfl, rfl⟩ := h
    exact hc
  | some index =>
    simp only [load] at h
    split at h
    · rename_i hlt
      split at h
      · simp only [Outcome.ok.injEq] at h
        obtain ⟨rfl, rfl⟩ := h
        simp [cursorOk, hlt]
      · split at h
        · simp only [Outcome.ok.injEq] at h
          obtain ⟨rfl, rfl⟩ := h
          simpa [cursorOk] using hc
        · exact absurd h (by simp)
      · split at h
        · simp only [Outcome.ok.injEq] at h
          obtain ⟨rfl, rfl⟩ := h
          simpa [cursorOk] using hc
        · exact absurd h (by simp)
    · exact absurd h (by simp)

theorem andThen_ok {o : Outcome} {f : PlayerState → Outcome} {s' : PlayerState}
    {evs : List PlayerEvent} (h : o.andThen f = .ok s' evs) :
    ∃ s1 evs1 evs2, o = .ok s1 evs1 ∧ f s1 = .ok s' evs2 ∧ evs = evs1 ++ evs2 := by
  cases o with
  | ok s1 evs1 =>
    cases hf : f s1 with
    | ok s2 evs2 =>
      simp only [Outcome.andThen, hf, Outcome.ok.injEq] at h
      exact ⟨s1, evs1, evs2, rfl, by rw [hf, h.1], h.2.symm⟩
    | panic evs2 => simp [Outcome.andThen, hf] at h
    | diverge evs2 => simp [Outcome.andThen, hf] at h
  | panic evs1 => simp [Outcome.andThen] at h
  | diverge evs1 => simp [Outcome.andThen] at h

theorem cursorOk_next {fs : String → FileOutcome} {s s' : PlayerState}
    {evs : List PlayerEvent}
    (hc : cursorOk s = true) (h : next fs s = .ok s' evs) : cursorOk s' = true := by
  simp only [next] at h
  split at h
  · rename_i index hidx
    split at h
    · rename_i hlt
      exact cursorOk_load (by simp [cursorOk, hlt]) h
    · simp only [Outcome.ok.injEq] at h
      obtain ⟨rfl, rfl⟩ := h
      exact hc
  · simp only [Outcome.ok.injEq] at h
    obtain ⟨rfl, rfl⟩ := h
    exact hc

theorem cursorOk_move {s : PlayerState} {old_index new_index : Nat} {s' : PlayerState}
    {evs : List PlayerEvent}
    (hc : cursorOk s = true) (h : move_playlist_item s old_index new_index = .ok s' evs) :
    cursorOk s' = true := by
  simp only [move_playlist_item] at h
  split at h
  · simp only [Outcome.ok.injEq] at h
    obtain ⟨rfl, rfl⟩ := h
    exact hc
  · rename_i hbounds
    split at h
    · simp only [Outcome.ok.injEq] at h
      obtain ⟨rfl, rfl⟩ := h
      exact hc
    · rename_i hne
      have hob : old_index < s.playlist.length ∧ new_index < s.playlist.length := by
        rcases not_or.mp hbounds with ⟨h1, h2⟩
        omega
      simp only [Outcome.ok.injEq] at h
      obtain ⟨rfl, rfl⟩ := h
      have herase : (s.playlist.eraseIdx old_index).length = s.playlist.length - 1 := by
        rw [List.length_eraseIdx]
        simp [hob.1]
      have hlen : ∀ x : PlaylistItem,
          (List.insertIdx new_index x (s.playlist.eraseIdx old_index)).length =
            s.playlist.length := by
        intro x
        rw [List.length_insertIdx _ _ (by omega), herase]
        omega
      cases hcur : s.current_track_index with
      | none => simp [cursorOk, schedule_playlist_update, hcur]
      | some c =>
        have hclen : c < s.playlist.length := by
          have := hc
          simp [cursorOk, hcur] at this
          exact this
        simp only [cursorOk, schedule_playlist_update, hcur]
        split_ifs with h1 h2 h3 <;> simp [hlen] <;> omega

theorem cursorOk_play {fs : String → FileOutcome} {s s' : PlayerState}
    {evs : List PlayerEvent}
    (hc : cursorOk s = true) (h : play fs s = .ok s' evs) : cursorOk s' = true := by
  simp only [play] at h
  split at h
  · split at h
    · simp only [Outcome.ok.injEq] at h
      obtain ⟨rfl, rfl⟩ := h
      exact hc
    · simp at h
  · obtain ⟨s1, evs1, evs2, hload, hf, rfl⟩ := andThen_ok h
    have hc1 := cursorOk_load hc hload
    split at hf
    · split at hf
      · simp only [Outcome.ok.injEq] at hf
        obtain ⟨rfl, rfl⟩ := hf
        exact hc1
      · simp at hf
    · simp at hf

theorem cursorOk_send_progress {fs : String → FileOutcome} {s s' : PlayerState}
    {sink_empty : Bool} {pos : Nat} {evs : List PlayerEvent}
    (hc : cursorOk s = true) (h : send_progress fs s sink_empty pos = .ok s' evs) :
    cursorOk s' = true := by
  simp only [send_progress] at h
  split at h
  · split at h
    · split at h
      · obtain ⟨s1, evs1, evs2, hstart, hf, rfl⟩ := andThen_ok h
        simp only [Outcome.ok.injEq] at hstart
        obtain ⟨rfl, rfl⟩ := hstart
        split at hf
        · exact cursorOk_next hc hf
        · simp only [Outcome.ok.injEq] at hf
          obtain ⟨rfl, rfl⟩ := hf
          exact hc
      · simp at h
    · split at h
      · simp only [Outcome.ok.injEq] at h
        obtain ⟨rfl, rfl⟩ := h
        exact hc
      · simp at h
  · simp only [Outcome.ok.injEq] at h
    obtain ⟨rfl, rfl⟩ := h
    exact hc

theorem cursorOk_step {fs : String → FileOutcome} {s : PlayerState} {inp : Input}
    {s' : PlayerState} {evs : List PlayerEvent}
    (hc : cursorOk s = true) (hnr : isRemoveCmd inp = false)
    (h : step fs s inp = .ok s' evs) : cursorOk s' = true := by
  cases inp with
  | cmdLoad index =>
    simp only [step] at h
    exact cursorOk_load hc h
  | cmdPlay =>
    simp only [step] at h
    exact cursorOk_play hc h
  | cmdPause pos =>
    simp only [step, pause] at h
    split at h
    · split at h
      · simp only [Outcome.ok.injEq] at h
        obtain ⟨rfl, rfl⟩ := h
        exact hc
      · simp at h
    · simp only [Outcome.ok.injEq] at h
      obtain ⟨rfl, rfl⟩ := h
      exact hc
  | cmdStop =>
    simp only [step, stop] at h
    split at h
    · simp only [Outcome.ok.injEq] at h
      obtain ⟨rfl, rfl⟩ := h
      exact hc
    · simp only [Outcome.ok.injEq] at h
      obtain ⟨rfl, rfl⟩ := h
      exact hc
  | cmdNext =>
    simp only [step] at h
    exact cursorOk_next hc h
  | cmdPrevious =>
    simp only [step, previous] at h
    split at h
    · rename_i index hidx
      split at h
      · rename_i hpos
        have hlt : index < s.playlist.length := by
          have := hc
          simp [cursorOk, hidx] at this
          exact this
        exact cursorOk_load (by simp [cursorOk]; omega) h
      · simp only [Outcome.ok.injEq] at h
        obtain ⟨rfl, rfl⟩ := h
        exact hc
    · simp only [Outcome.ok.injEq] at h
      obtain ⟨rfl, rfl⟩ := h
      exact hc
  | cmdSwitch index =>
    simp only [step, switch] at h
    split at h
    · by_cases hlt : index < s.playlist.length
      · exact cursorOk_load (by simp [cursorOk, hlt]) h
      · rw [load_oob (by simpa using hlt)] at h
        simp at h
    · simp only [Outcome.ok.injEq] at h
      obtain ⟨rfl, rfl⟩ := h
      exact hc
  | cmdSeek position seekOk obsPos =>
    simp only [step, seek] at h
    split at h
    · split at h
      · split at h
        · simp only [Outcome.ok.injEq] at h
          obtain ⟨rfl, rfl⟩ := h
          exact hc
        · simp at h
      · simp only [Outcome.ok.injEq] at h
        obtain ⟨rfl, rfl⟩ := h
        exact hc
    · simp only [Outcome.ok.injEq] at h
      obtain ⟨rfl, rfl⟩ := h
      exact hc
  | cmdAddToPlaylist id path =>
    simp only [step, add_to_playlist, Outcome.ok.injEq] at h
    obtain ⟨rfl, rfl⟩ := h
    cases hcur : s.current_track_index with
    | none => simp [cursorOk, schedule_playlist_update, hcur]
    | some c =>
      have hclen : c < s.playlist.length := by
        have := hc
        simp [cursorOk, hcur] at this
        exact this
      simp [cursorOk, schedule_playlist_update, hcur]
      omega
  | cmdRemoveFromPlaylist index => simp [isRemoveCmd] at hnr
  | cmdClearPlaylist =>
    simp only [step, clear_playlist, Outcome.ok.injEq] at h
    obtain ⟨rfl, rfl⟩ := h
    simp [cursorOk, schedule_playlist_update]
  | cmdMovePlayListItem old_index new_index =>
    simp only [step] at h
    exact cursorOk_move hc h
  | tickProgress sink_empty pos =>
    simp only [step, tick] at h
    split at h
    · exact cursorOk_send_progress hc h
    · simp only [Outcome.ok.injEq] at h
      obtain ⟨rfl, rfl⟩ := h
      exact hc
  | debounceExpired =>
    simp only [step, debounce_fire] at h
    split at h
    · simp only [Outcome.ok.injEq] at h
      obtain ⟨rfl, rfl⟩ := h
      exact hc
    · simp only [Outcome.ok.injEq] at h
      obtain ⟨rfl, rfl⟩ := h
      exact hc
  | fftSnapshot data =>
    simp only [step, Outcome.ok.injEq] at h
    obtain ⟨rfl, rfl⟩ := h
    exact hc

theorem cursorOk_runInputs {fs : String → FileOutcome} {s : PlayerState}
    {inputs : List Input} {s' : PlayerState} {evs : List PlayerEvent}
    (hc : cursorOk s = true) (hnr : ∀ inp ∈ inputs, isRemoveCmd inp = false)
    (h : runInputs fs s inputs = .ok s' evs) : cursorOk s' = true := by
  induction inputs generalizing s evs with
  | nil =>
    simp only [runInputs, Outcome.ok.injEq] at h
    obtain ⟨rfl, rfl⟩ := h
    exact hc
  | cons inp rest ih =>
    simp only [runInputs] at h
    obtain ⟨s1, evs1, evs2, hstep, hrest, rfl⟩ := andThen_ok h
    exact ih (cursorOk_step hc (hnr inp (by simp)) hstep)
      (fun i hi => hnr i (by simp [hi])) hrest

theorem playingHasSink_load {fs : String → FileOutcome} {s : PlayerState} {oidx : Option Nat}
    {s' : PlayerState} {evs : List PlayerEvent}
    (hps : playingHasSink s = true) (h : load fs s oidx = .ok s' evs) :
    playingHasSink s' = true := by
  match oidx with
  | none =>
    simp only [load, Outcome.ok.injEq] at h
    obtain ⟨rfl, rfl⟩ := h
    exact hps
  | some index =>
    simp only [load] at h
    split at h
    · split at h
      · simp only [Outcome.ok.injEq] at h
        obtain ⟨rfl, rfl⟩ := h
        simp [playingHasSink]
      · split at h
        · simp only [Outcome.ok.injEq] at h
          obtain ⟨rfl, rfl⟩ := h
          simp [playingHasSink]
        · simp at h
      · split at h
        · simp only [Outcome.ok.injEq] at h
          obtain ⟨rfl, rfl⟩ := h
          simp [playingHasSink]
        · simp at h
    · simp at h

theorem playingHasSink_next {fs : String → FileOutcome} {s s' : PlayerState}
    {evs : List PlayerEvent}
    (hps : playingHasSink s = true) (h : next fs s = .ok s' evs) :
    playingHasSink s' = true := by
  simp only [next] at h
  split at h
  · split at h
    · exact playingHasSink_load (by simpa [playingHasSink] using hps) h
    · simp only [Outcome.ok.injEq] at h
      obtain ⟨rfl, rfl⟩ := h
      simp [playingHasSink]
  · simp only [Outcome.ok.injEq] at h
    obtain ⟨rfl, rfl⟩ := h
    exact hps

theorem playingHasSink_step {fs : String → FileOutcome} {s : PlayerState} {inp : Input}
    {s' : PlayerState} {evs : List PlayerEvent}
    (hps : playingHasSink s = true) (h : step fs s inp = .ok s' evs) :
    playingHasSink s' = true := by
  cases inp with
  | cmdLoad index =>
    simp only [step] at h
    exact playingHasSink_load hps h
  | cmdPlay =>
    simp only [step, play] at h
    split at h
    · rename_i hsink
      split at h
      · simp only [Outcome.ok.injEq] at h
        obtain ⟨rfl, rfl⟩ := h
        simp [playingHasSink, hsink]
      · simp at h
    · obtain ⟨s1, evs1, evs2, hload, hf, rfl⟩ := andThen_ok h
      have hps1 := playingHasSink_load hps hload
      split at hf
      · rename_i hsink1
        split at hf
        · simp only [Outcome.ok.injEq] at hf
          obtain ⟨rfl, rfl⟩ := hf
          simp [playingHasSink, hsink1]
        · simp at hf
      · simp at hf
  | cmdPause pos =>
    simp only [step, pause] at h
    split at h
    · split at h
      · simp only [Outcome.ok.injEq] at h
        obtain ⟨rfl, rfl⟩ := h
        simp [playingHasSink]
      · simp at h
    · simp only [Outcome.ok.injEq] at h
      obtain ⟨rfl, rfl⟩ := h
      exact hps
  | cmdStop =>
    simp only [step, stop] at h
    split at h
    · simp only [Outcome.ok.injEq] at h
      obtain ⟨rfl, rfl⟩ := h
      simp [playingHasSink]
    · simp only [Outcome.ok.injEq] at h
      obtain ⟨rfl, rfl⟩ := h
      exact hps
  | cmdNext =>
    simp only [step] at h
    exact playingHasSink_next hps h
  | cmdPrevious =>
    simp only [step, previous] at h
    split at h
    · split at h
      · exact playingHasSink_load (by simpa [playingHasSink] using hps) h
      · simp only [Outcome.ok.injEq] at h
        obtain ⟨rfl, rfl⟩ := h
        exact hps
    · simp only [Outcome.ok.injEq] at h
      obtain ⟨rfl, rfl⟩ := h
      exact hps
  | cmdSwitch index =>
    simp only [step, switch] at h
    split at h
    · exact playingHasSink_load (by simpa [playingHasSink] using hps) h
    · simp only [Outcome.ok.injEq] at h
      obtain ⟨rfl, rfl⟩ := h
      exact hps
  | cmdSeek position seekOk obsPos =>
    simp only [step, seek] at h
    split at h
    · rename_i hsink
      split at h
      · split at h
        · simp only [Outcome.ok.injEq] at h
          obtain ⟨rfl, rfl⟩ := h
          simp [playingHasSink, hsink]
        · simp at h
      · simp only [Outcome.ok.injEq] at h
        obtain ⟨rfl, rfl⟩ := h
        exact hps
    · simp only [Outcome.ok.injEq] at h
      obtain ⟨rfl, rfl⟩ := h
      exact hps
  | cmdAddToPlaylist id path =>
    simp only [step, add_to_playlist, Outcome.ok.injEq] at h
    obtain ⟨rfl, rfl⟩ := h
    simpa [playingHasSink, schedule_playlist_update] using hps
  | cmdRemoveFromPlaylist index =>
    simp only [step, remove_from_playlist] at h
    split at h
    · simp only [Outcome.ok.injEq] at h
      obtain ⟨rfl, rfl⟩ := h
      simpa [playingHasSink, schedule_playlist_update] using hps
    · simp only [Outcome.ok.injEq] at h
      obtain ⟨rfl, rfl⟩ := h
      exact hps
  | cmdClearPlaylist =>
    simp only [step, clear_playlist, Outcome.ok.injEq] at h
    obtain ⟨rfl, rfl⟩ := h
    simp [playingHasSink, schedule_playlist_update]
  | cmdMovePlayListItem old_index new_index =>
    simp only [step, move_playlist_item] at h
    split at h
    · simp only [Outcome.ok.injEq] at h
      obtain ⟨rfl, rfl⟩ := h
      exact hps
    · split at h
      · simp only [Outcome.ok.injEq] at h
        obtain ⟨rfl, rfl⟩ := h
        exact hps
      · simp only [Outcome.ok.injEq] at h
        obtain ⟨rfl, rfl⟩ := h
        simpa [playingHasSink, schedule_playlist_update] using hps
  | tickProgress sink_empty pos =>
    simp only [step, tick] at h
    split at h
    · simp only [send_progress] at h
      split at h
      · split at h
        · split at h
          · obtain ⟨s1, evs1, evs2, hstart, hf, rfl⟩ := andThen_ok h
            simp only [Outcome.ok.injEq] at hstart
            obtain ⟨rfl, rfl⟩ := hstart
            split at hf
            · exact playingHasSink_next hps hf
            · contradiction
          · simp at h
        · split at h
          · simp only [Outcome.ok.injEq] at h
            obtain ⟨rfl, rfl⟩ := h
            exact hps
          · simp at h
      · simp only [Outcome.ok.injEq] at h
        obtain ⟨rfl, rfl⟩ := h
        exact hps
    · simp only [Outcome.ok.injEq] at h
      obtain ⟨rfl, rfl⟩ := h
      exact hps
  | debounceExpired =>
    simp only [step, debounce_fire] at h
    split at h
    · simp only [Outcome.ok.injEq] at h
      obtain ⟨rfl, rfl⟩ := h
      simpa [playingHasSink] using hps
    · simp only [Outcome.ok.injEq] at h
      obtain ⟨rfl, rfl⟩ := h
      exact hps
  | fftSnapshot data =>
    simp only [step, Outcome.ok.injEq] at h
    obtain ⟨rfl, rfl⟩ := h
    exact hps

theorem playingHasSink_runInputs {fs : String → FileOutcome} {s : PlayerState}
    {inputs : List Input} {s' : PlayerState} {evs : List PlayerEvent}
    (hps : playingHasSink s = true) (h : runInputs fs s inputs = .ok s' evs) :
    playingHasSink s' = true := by
  induction inputs generalizing s evs with
  | nil =>
    simp only [runInputs, Outcome.ok.injEq] at h
    obtain ⟨rfl, rfl⟩ := h
    exact hps
  | cons inp rest ih =>
    simp only [runInputs] at h
    obtain ⟨s1, evs1, evs2, hstep, hrest, rfl⟩ := andThen_ok h
    exact ih (playingHasSink_step hps hstep) hrest

theorem getElem?_insertIdx_of_le {α : Type} (l : List α) (x : α) (n : Nat)
    (hn : n ≤ l.length) (j : Nat) :
    (l.insertIdx n x)[j]? = if j < n then l[j]? else if j = n then some x else l[j - 1]? := by
  have hlen : (l.insertIdx n x).length = l.length + 1 := List.length_insertIdx _ _ hn
  by_cases hjn : j < n
  · rw [if_pos hjn]
    have hj : j < l.length := by omega
    rw [List.getElem?_eq_getElem (by omega), List.getElem?_eq_getElem hj]
    exact congrArg some (List.getElem_insertIdx_of_lt l x n j hjn hj)
  · rw [if_neg hjn]
    by_cases hje : j = n
    · subst hje
      rw [if_pos rfl, List.getElem?_eq_getElem (by omega)]
      exact congrArg some (List.getElem_insertIdx_self l x j hn)
    · rw [if_neg hje]
      by_cases hjl : j ≤ l.length
      · have hkey : n + (j - 1 - n) + 1 = j := by omega
        have hkey2 : n + (j - 1 - n) = j - 1 := by omega
        have hEq1 : (l.insertIdx n x)[j]? = (l.insertIdx n x)[n + (j - 1 - n) + 1]? := by
          rw [hkey]
        have hEq2 : l[j - 1]? = l[n + (j - 1 - n)]? := by
          rw [hkey2]
        rw [hEq1, hEq2, List.getElem?_eq_getElem (by rw [hlen]; omega),
          List.getElem?_eq_getElem (by omega)]
        exact congrArg some
          (List.getElem_insertIdx_add_succ l x n (j - 1 - n) (by omega) (by rw [hlen]; omega))
      · rw [List.getElem?_eq_none (by omega), List.getElem?_eq_none (by omega)]

theorem move_playlist_item_eq_ok (s : PlayerState) (old_index new_index : Nat) :
    move_playlist_item s old_index new_index = .ok (moveState s old_index new_index) [] := by
  rw [moveState]
  rw [move_playlist_item]
  split
  · rfl
  · split
    · rfl
    · rfl

/-- Moving an element leaves the element at (adjusted) position `c` alone. -/
theorem getElem?_move_adjusted {α : Type} (l : List α) (old_index new_index c : Nat)
    (hold : old_index < l.length) (hnew : new_index < l.length) (hc : c < l.length)
    (_hne : old_index ≠ new_index) :
    ((l.eraseIdx old_index).insertIdx new_index (l.get ⟨old_index, hold⟩))[adjustedCursor
        old_index new_index c]? = l[c]? := by
  have herase : (l.eraseIdx old_index).length = l.length - 1 := by
    rw [List.length_eraseIdx]
    simp [hold]
  have hins := getElem?_insertIdx_of_le (l.eraseIdx old_index) (l.get ⟨old_index, hold⟩)
    new_index (by omega)
  rw [adjustedCursor]
  by_cases h1 : old_index = c
  · subst h1
    rw [if_pos rfl, hins, if_neg (by omega), if_pos rfl, List.getElem?_eq_getElem hc]
    rfl
  · rw [if_neg h1]
    by_cases h2 : old_index < c ∧ new_index ≥ c
    · rw [if_pos h2, hins, if_pos (by omega), List.getElem?_eraseIdx_of_ge _ _ _ (by omega)]
      congr 1
      omega
    · rw [if_neg h2]
      by_cases h3 : old_index > c ∧ new_index ≤ c
      · rw [if_pos h3, hins, if_neg (by omega), if_neg (by omega),
          List.getElem?_eraseIdx_of_lt _ _ _ (by omega)]
        congr 1
      · rw [if_neg h3, hins]
        by_cases h4 : c < old_index
        · rw [if_pos (by omega), List.getElem?_eraseIdx_of_lt _ _ _ (by omega)]
        · rw [if_neg (by omega), if_neg (by omega),
            List.getElem?_eraseIdx_of_ge _ _ _ (by omega)]
          congr 1
          omega

/-- One in-bounds, non-trivial move: the cursor follows the §4.1.1 rule and
keeps denoting the same item. -/
theorem moveState_cursor_and_item (s : PlayerState) (old_index new_index c : Nat)
    (hcur : s.current_track_index = some c)
    (hc : c < s.playlist.length)
    (hold : old_index < s.playlist.length) (hnew : new_index < s.playlist.length)
    (hne : old_index ≠ new_index) :
    (moveState s old_index new_index).current_track_index =
        some (adjustedCursor old_index new_index c) ∧
      currentItem (moveState s old_index new_index) = currentItem s := by
  have hms : moveState s old_index new_index =
      schedule_playlist_update
        { s with
            playlist := (s.playlist.eraseIdx old_index).insertIdx new_index
              (s.playlist.get ⟨old_index, hold⟩)
            current_track_index := some (adjustedCursor old_index new_index c) } := by
    rw [moveState, move_playlist_item]
    rw [dif_neg (by omega)]
    rw [if_neg hne]
    simp only [hcur]
    have hopt : (if old_index = c then some new_index
        else if old_index < c ∧ new_index ≥ c then some (c - 1)
        else if old_index > c ∧ new_index ≤ c then some (c + 1) else some c)
        = some (adjustedCursor old_index new_index c) := by
      rw [adjustedCursor]
      split_ifs <;> rfl
    rw [hopt]
  rw [hms]
  constructor
  · rfl
  · simp only [currentItem, schedule_playlist_update, hcur, Option.bind_some]
    exact getElem?_move_adjusted s.playlist old_index new_index c hold hnew hc hne

/-- Arbitrary `move_playlist_item` arguments never change which item the
cursor denotes. -/
theorem moveState_currentItem (s : PlayerState) (old_index new_index : Nat)
    (x : PlaylistItem) (hx : currentItem s = some x) :
    currentItem (moveState s old_index new_index) = some x := by
  obtain ⟨c, hcur, hget⟩ : ∃ c, s.current_track_index = some c ∧ s.playlist[c]? = some x := by
    rw [currentItem] at hx
    cases hcv : s.current_track_index with
    | none => rw [hcv] at hx; simp at hx
    | some c => rw [hcv] at hx; exact ⟨c, rfl, by simpa using hx⟩
  have hc : c < s.playlist.length := by
    by_contra hcon
    rw [List.getElem?_eq_none (by omega)] at hget
    simp at hget
  by_cases hob : s.playlist.length ≤ old_index ∨ s.playlist.length ≤ new_index
  · have : moveState s old_index new_index = s := by
      rw [moveState, move_playlist_item, dif_pos hob]
    rw [this, hx]
  · by_cases hne : old_index = new_index
    · have : moveState s old_index new_index = s := by
        rw [moveState, move_playlist_item, dif_neg hob]
        rw [if_pos hne]
      rw [this, hx]
    · have hold : old_index < s.playlist.length := by omega
      have hnew : new_index < s.playlist.length := by omega
      have := moveState_cursor_and_item s old_index new_index c hcur hc hold hnew hne
      rw [this.2, hx]

/-- Sequences of moves preserve the item under the cursor. -/
theorem foldl_moveState_currentItem (ms : List (Nat × Nat)) (s : PlayerState)
    (x : PlaylistItem) (hx : currentItem s = some x) :
    currentItem (ms.foldl (fun t m => moveState t m.1 m.2) s) = some x := by
  induction ms generalizing s with
  | nil => exact hx
  | cons m rest ih =>
    exact ih (moveState s m.1 m.2) (moveState_currentItem s m.1 m.2 x hx)

/-- C1 (counterexample): when no track was ever loaded
(`current_track_id = none`) and `Load(0)` hits an unreadable file, the
handler panics with no events — it does not emit `Error` and transition to
`Stopped` as the claim states. -/
theorem load_failure_first_track_panics :
    load fsAllOpenFail { initialState with playlist := [⟨7, "a.flac"⟩] } (some 0) = .panic [] :=
  rfl

/-- C1 (amended): for in-bounds `Load(index)` whose open or decode fails,
if `current_track_id` is present the engine emits
`Error{message = "Failed to open file" | "Failed to decode audio"}` (carrying
the stale id) and transitions to `Stopped`; if `current_track_id` is absent
the error path panics on the `unwrap`. -/
theorem load_failure_emits_error_or_panics (fs : String → FileOutcome) (s : PlayerState)
    (index : Nat) (item : PlaylistItem)
    (hitem : s.playlist[index]? = some item)
    (hfail : fs item.path ≠ .ok) :
    (∀ id, s.current_track_id = some id →
        load fs s (some index) =
          .ok { s with state := .stopped }
            [.error id index item.path (failureMessage (fs item.path))]) ∧
    (s.current_track_id = none → load fs s (some index) = .panic []) := by
  have hlt : index < s.playlist.length := by
    by_contra hcon
    rw [List.getElem?_eq_none (by omega)] at hitem
    simp at hitem
  have hget : s.playlist.get ⟨index, hlt⟩ = item := by
    have := hitem
    rw [List.getElem?_eq_getElem hlt] at this
    simpa using this
  constructor
  · intro id hid
    simp only [load]
    rw [dif_pos hlt]
    simp only [hget]
    cases hfs : fs item.path with
    | ok => exact absurd hfs hfail
    | decodeFailed => simp [hid, failureMessage]
    | openFailed => simp [hid, failureMessage]
  · intro hid
    simp only [load]
    rw [dif_pos hlt]
    simp only [hget]
    cases hfs : fs item.path with
    | ok => exact absurd hfs hfail
    | decodeFailed => simp [hid]
    | openFailed => simp [hid]

/-- C1 (witness): the amended theorem at a concrete one-track state with a
previously loaded id. -/
theorem load_failure_emits_error_or_panics_witness :
    (({ initialState with
        playlist := [⟨3, "b.flac"⟩]
        current_track_id := some 9 } : PlayerState).playlist[0]? = some ⟨3, "b.flac"⟩) ∧
    fsAllOpenFail "b.flac" ≠ .ok ∧
    load fsAllOpenFail
        { initialState with playlist := [⟨3, "b.flac"⟩], current_track_id := some 9 } (some 0) =
      .ok { initialState with
              playlist := [⟨3, "b.flac"⟩]
              current_track_id := some 9
              state := .stopped }
        [.error 9 0 "b.flac" "Failed to open file"] :=
  ⟨rfl, by decide,
   (load_failure_emits_error_or_panics fsAllOpenFail
      { initialState with playlist := [⟨3, "b.flac"⟩], current_track_id := some 9 }
      0 ⟨3, "b.flac"⟩ rfl (by decide)).1 9 rfl⟩

/-- C3: `Switch(5)` on a two-item playlist is not a no-op — the guard
`index > 0 || index < playlist.len()` passes, `load(5)` runs and panics
indexing `playlist[5]`. -/
theorem switch_out_of_range_panics :
    switch fsAllOk { initialState with playlist := [⟨1, "a"⟩, ⟨2, "b"⟩] } 5 = .panic [] :=
  rfl

/-- C4 (counterexample): the execution add, load 0, remove 0 ends at a
handler boundary with the cursor set to 0 and an empty playlist — the
cursor bound is violated. -/
theorem remove_from_playlist_breaks_cursor_bound :
    runInputs fsAllOk initialState
        [.cmdAddToPlaylist 1 "a", .cmdLoad 0, .cmdRemoveFromPlaylist 0] =
      .ok { playlist := [], current_track_id := some 1, current_track_index := some 0,
            current_track_path := some "a", sink := some (), stream := some (),
            state := .playing, debounce_timer := some () }
        [.playing 1 0 "a" 0] ∧
    cursorOk { playlist := [], current_track_id := some 1, current_track_index := some 0,
               current_track_path := some "a", sink := some (), stream := some (),
               state := .playing, debounce_timer := some () } = false :=
  ⟨rfl, rfl⟩

/-- C4 (amended): if the cursor is set then `cursor < |playlist|` at every
handler boundary of every execution that contains no `RemoveFromPlaylist`;
`RemoveFromPlaylist` does not adjust the cursor and can break the bound. -/
theorem cursor_in_bounds_without_remove {fs : String → FileOutcome} {s : PlayerState}
    {inputs : List Input} {s' : PlayerState} {evs : List PlayerEvent}
    (hc : cursorOk s = true) (hnr : ∀ inp ∈ inputs, isRemoveCmd inp = false)
    (h : runInputs fs s inputs = .ok s' evs) : cursorOk s' = true :=
  cursorOk_runInputs hc hnr h

/-- C4 (witness): the amended theorem along the concrete execution
add, load 0, next. -/
theorem cursor_in_bounds_without_remove_witness :
    cursorOk initialState = true ∧
    (∀ inp ∈ ([.cmdAddToPlaylist 1 "a", .cmdLoad 0, .cmdNext] : List Input),
      isRemoveCmd inp = false) ∧
    runInputs fsAllOk initialState [.cmdAddToPlaylist 1 "a", .cmdLoad 0, .cmdNext] =
      .ok { playlist := [⟨1, "a"⟩], current_track_id := some 1, current_track_index := some 0,
            current_track_path := some "a", sink := some (), stream := some (),
            state := .stopped, debounce_timer := some () }
        [.playing 1 0 "a" 0, .endOfPlaylist] ∧
    cursorOk { playlist := [⟨1, "a"⟩], current_track_id := some 1, current_track_index := some 0,
               current_track_path := some "a", sink := some (), stream := some (),
               state := .stopped, debounce_timer := some () } = true :=
  ⟨rfl, by decide, rfl,
   @cursor_in_bounds_without_remove fsAllOk initialState
     [.cmdAddToPlaylist 1 "a", .cmdLoad 0, .cmdNext]
     { playlist := [⟨1, "a"⟩], current_track_id := some 1, current_track_index := some 0,
       current_track_path := some "a", sink := some (), stream := some (),
       state := .stopped, debounce_timer := some () }
     [.playing 1 0 "a" 0, .endOfPlaylist] rfl (by decide) rfl⟩

/-- C5 (counterexample): the execution add, load 0, next reaches
end-of-playlist: the state is `Stopped` yet the sink is still present, so
`Stopped` does not imply no sink. -/
theorem end_of_playlist_keeps_sink :
    runInputs fsAllOk initialState [.cmdAddToPlaylist 1 "a", .cmdLoad 0, .cmdNext] =
      .ok { playlist := [⟨1, "a"⟩], current_track_id := some 1, current_track_index := some 0,
            current_track_path := some "a", sink := some (), stream := some (),
            state := .stopped, debounce_timer := some () }
        [.playing 1 0 "a" 0, .endOfPlaylist] ∧
    PlayerState.state
        { playlist := [⟨1, "a"⟩], current_track_id := some 1, current_track_index := some 0,
          current_track_path := some "a", sink := some (), stream := some (),
          state := .stopped, debounce_timer := some () } = .stopped ∧
    Option.isSome
        (PlayerState.sink
          { playlist := [⟨1, "a"⟩], current_track_id := some 1, current_track_index := some 0,
            current_track_path := some "a", sink := some (), stream := some (),
            state := .stopped, debounce_timer := some () }) = true :=
  ⟨rfl, rfl, rfl⟩

/-- C5 (amended): at every handler boundary reachable from the initial
state, `Playing` implies a sink exists; but `Next` at end-of-playlist only
sets the state to `Stopped` and emits `EndOfPlaylist` — the whole rest of
the state, the sink included, is unchanged. -/
theorem playing_implies_sink_but_stopped_may_keep_sink :
    (∀ (fs : String → FileOutcome) (inputs : List Input) (s' : PlayerState)
        (evs : List PlayerEvent),
        runInputs fs initialState inputs = .ok s' evs → playingHasSink s' = true) ∧
    (∀ (fs : String → FileOutcome) (s : PlayerState) (index : Nat),
        s.current_track_index = some index → ¬ (index + 1 < s.playlist.length) →
        next fs s = .ok { s with state := .stopped } [.endOfPlaylist]) := by
  constructor
  · intro fs inputs s' evs h
    exact @playingHasSink_runInputs fs initialState inputs s' evs rfl h
  · intro fs s index hcur hlast
    simp only [next, hcur]
    rw [if_neg hlast]

/-- C5 (witness): the reachability half of the amended theorem on the
concrete execution add, load 0. -/
theorem playing_implies_sink_witness :
    runInputs fsAllOk initialState [.cmdAddToPlaylist 1 "a", .cmdLoad 0] =
      .ok { playlist := [⟨1, "a"⟩], current_track_id := some 1, current_track_index := some 0,
            current_track_path := some "a", sink := some (), stream := some (),
            state := .playing, debounce_timer := some () }
        [.playing 1 0 "a" 0] ∧
    playingHasSink
        { playlist := [⟨1, "a"⟩], current_track_id := some 1, current_track_index := some 0,
          current_track_path := some "a", sink := some (), stream := some (),
          state := .playing, debounce_timer := some () } = true :=
  ⟨rfl,
   playing_implies_sink_but_stopped_may_keep_sink.1 fsAllOk
     [.cmdAddToPlaylist 1 "a", .cmdLoad 0] _ _ rfl⟩

/-- C6: for every in-bounds `MovePlayListItem(old, new)` with `old ≠ new`,
the post-move cursor equals the §4.1.1 rule and denotes the same underlying
item as before; and any sequence of moves preserves the item under the
cursor. -/
theorem move_cursor_follows_rule_and_preserves_item :
    (∀ (s : PlayerState) (old_index new_index c : Nat),
        s.current_track_index = some c → c < s.playlist.length →
        old_index < s.playlist.length → new_index < s.playlist.length →
        old_index ≠ new_index →
        (moveState s old_index new_index).current_track_index =
            some (adjustedCursor old_index new_index c) ∧
          currentItem (moveState s old_index new_index) = currentItem s) ∧
    (∀ (ms : List (Nat × Nat)) (s : PlayerState) (x : PlaylistItem),
        currentItem s = some x →
        currentItem (ms.foldl (fun t m => moveState t m.1 m.2) s) = some x) :=
  ⟨fun s old_index new_index c h1 h2 h3 h4 h5 =>
     moveState_cursor_and_item s old_index new_index c h1 h2 h3 h4 h5,
   fun ms s x hx => foldl_moveState_currentItem ms s x hx⟩

/-- C6 (witness): the theorem on a three-item playlist: moving item 0 to
position 2 while the cursor is 2 sends the cursor to 1 and keeps it on the
same item; the move sequence [(0,2), (2,0)] also keeps the item. -/
theorem move_cursor_follows_rule_witness :
    (({ initialState with
          playlist := [⟨1, "a"⟩, ⟨2, "b"⟩, ⟨3, "c"⟩]
          current_track_index := some 2 } : PlayerState).current_track_index = some 2) ∧
    ((moveState { initialState with
          playlist := [⟨1, "a"⟩, ⟨2, "b"⟩, ⟨3, "c"⟩]
          current_track_index := some 2 } 0 2).current_track_index =
        some (adjustedCursor 0 2 2) ∧
      currentItem (moveState { initialState with
          playlist := [⟨1, "a"⟩, ⟨2, "b"⟩, ⟨3, "c"⟩]
          current_track_index := some 2 } 0 2) =
        currentItem { initialState with
          playlist := [⟨1, "a"⟩, ⟨2, "b"⟩, ⟨3, "c"⟩]
          current_track_index := some 2 }) ∧
    currentItem (([(0, 2), (2, 0)] : List (Nat × Nat)).foldl
        (fun t m => moveState t m.1 m.2)
        { initialState with
            playlist := [⟨1, "a"⟩, ⟨2, "b"⟩, ⟨3, "c"⟩]
            current_track_index := some 2 }) = some ⟨3, "c"⟩ :=
  ⟨rfl,
   move_cursor_follows_rule_and_preserves_item.1 _ 0 2 2 rfl (by decide) (by decide)
     (by decide) (by decide),
   move_cursor_follows_rule_and_preserves_item.2 [(0, 2), (2, 0)] _ ⟨3, "c"⟩ (by decide)⟩

/-- C8: `Play` with an empty playlist and no sink performs `load(Some(0))`,
which indexes `playlist[0]` out of bounds and panics, emitting nothing. -/
theorem play_on_empty_playlist_panics : play fsAllOk initialState = .panic [] :=
  rfl

/-- C7 (counterexample): with 5 cores the code computes
`5 / 3 * 2 = 2`, while the claimed `clamp(⌊2·5/3⌋, 1, 1000)` is 3. -/
theorem determine_batch_size_five :
    determine_batch_size 5 ≠ min (max (2 * 5 / 3) 1) 1000 := by decide

/-- C7 (amended): for every core count the batch size equals
`clamp(2·⌊cores/3⌋, 1, 1000)` — the division happens before the doubling —
and with 6 cores the batch size is 4. -/
theorem determine_batch_size_clamp :
    (∀ num_cores, determine_batch_size num_cores =
        min (max (2 * (num_cores / 3)) 1) 1000) ∧
    determine_batch_size 6 = 4 := by
  constructor
  · intro n
    simp only [determine_batch_size]
    rw [Nat.mul_comm]
  · decide

/-- C2: `add_term(Track, 42, "x")` keys its delete-then-insert on the
`Debug` rendering of the *field handles* (`"Field(3)-Field(2)"`), not on
`"Track-42"`, so the following `remove_term(Track, 42)` deletes nothing and
the document survives; and because that key is the same for every call, a
second `add_term` under a different `(kind, id)` still leaves one document. -/
theorem add_then_remove_leaves_document :
    remove_term (add_term (fun s => s) schemaFixture [] .track 42 "x") .track 42 =
      [{ name := "x", latinization := "x", type := 0,
         tid := "Field(3)-Field(2)", id := 42 }] ∧
    (add_term (fun s => s) schemaFixture
        (add_term (fun s => s) schemaFixture [] .track 1 "a") .artist 2 "b").length = 1 := by
  constructor
  · rfl
  · rfl

theorem aggField_processResult_fst (fld : AnalysisField)
    (sum count : AggregatedAnalysisResult) (r : MediaAnalysisModel) :
    aggField fld (processResult sum count r).1 =
      fieldSum (rowField fld r) (aggField fld sum) := by
  cases fld <;> rfl

theorem aggField_processResult_snd (fld : AnalysisField)
    (sum count : AggregatedAnalysisResult) (r : MediaAnalysisModel) :
    aggField fld (processResult sum count r).2 =
      fieldCount (rowField fld r) (aggField fld count) := by
  cases fld <;> rfl

theorem aggField_finalizeAggregate (fld : AnalysisField)
    (sum count : AggregatedAnalysisResult) :
    aggField fld (finalizeAggregate sum count) =
      if aggField fld count > 0 then aggField fld sum / aggField fld count else 0 := by
  cases fld <;> rfl

theorem aggField_fold (fld : AnalysisField) :
    ∀ (rows : List MediaAnalysisModel) (sum count : AggregatedAnalysisResult),
      aggField fld ((rows.foldl (fun acc r => processResult acc.1 acc.2 r) (sum, count)).1) =
          aggField fld sum + (rows.filterMap (rowField fld)).sum ∧
        aggField fld ((rows.foldl (fun acc r => processResult acc.1 acc.2 r) (sum, count)).2) =
          aggField fld count + (rows.filterMap (rowField fld)).length := by
  intro rows
  induction rows with
  | nil => intro sum count; simp
  | cons r rest ih =>
    intro sum count
    have hstep := ih (processResult sum count r).1 (processResult sum count r).2
    rw [aggField_processResult_fst, aggField_processResult_snd] at hstep
    simp only [List.foldl_cons, List.filterMap_cons]
    cases hv : rowField fld r with
    | none =>
      simp only [fieldSum, fieldCount, hv] at hstep
      constructor
      · exact hstep.1
      · exact hstep.2
    | some v =>
      simp only [fieldSum, fieldCount, hv] at hstep
      constructor
      · rw [hstep.1, List.sum_cons]
        ring
      · rw [hstep.2, List.length_cons]
        push_cast
        ring

/-- C9: each of the nineteen aggregated components (seven spectral
descriptors and twelve chroma bins) equals the arithmetic mean of the
present values of that column over the selected rows — absent values count
in neither numerator nor denominator — and is `0` when the column is absent
in every selected row. -/
theorem aggregate_is_componentwise_mean (rows : List MediaAnalysisModel)
    (fld : AnalysisField) :
    aggField fld (get_centralized_analysis_result rows) =
      meanOrZero (rows.filterMap (rowField fld)) := by
  have h := aggField_fold fld rows zeroAggregate zeroAggregate
  have hz : aggField fld zeroAggregate = 0 := by cases fld <;> rfl
  rw [hz, zero_add] at h
  rw [get_centralized_analysis_result]
  rw [aggField_finalizeAggregate, h.1, h.2, meanOrZero]
  by_cases hL : (rows.filterMap (rowField fld)).length = 0
  · rw [if_pos hL, hL]
    norm_num
  · rw [if_neg hL, if_pos (by positivity), zero_add]

theorem chunkedCrc_lt (crcfn : List Nat → Nat → Nat → Nat → Nat) :
    ∀ (content : List Nat) (crc : Nat), crc < 2 ^ 32 →
      chunkedCrc crcfn content crc < 2 ^ 32 := by
  have key : ∀ (L : Nat) (content : List Nat), content.length ≤ L →
      ∀ (crc : Nat), crc < 2 ^ 32 → chunkedCrc crcfn content crc < 2 ^ 32 := by
    intro L
    induction L with
    | zero =>
      intro content hlen crc hcrc
      have : content = [] := List.length_eq_zero.mp (by omega)
      subst this
      rw [chunkedCrc]
      simpa using hcrc
    | succ L ih =>
      intro content hlen crc hcrc
      rw [chunkedCrc]
      split
      · exact hcrc
      · rename_i hne
        have hpos : 0 < content.length := by
          cases content with
          | nil => simp at hne
          | cons a l => simp
        apply ih
        · simp only [List.length_drop, CHUNK_SIZE]
          omega
        · exact Nat.mod_lt _ (by norm_num)
  exact fun content => key content.length content le_rfl

theorem toHexCore_length (k : Nat) :
    ∀ (n : Nat) (acc : List Char), n < 16 ^ k →
      (toHexCore n acc).length ≤ k + acc.length := by
  induction k with
  | zero =>
    intro n acc h
    have : n = 0 := by omega
    subst this
    rw [toHexCore]
    simp
  | succ k ih =>
    intro n acc h
    rw [toHexCore]
    split
    · simp
    · rename_i hne
      have hdiv : n / 16 < 16 ^ k := by
        rw [Nat.div_lt_iff_lt_mul (by norm_num)]
        calc n < 16 ^ (k + 1) := h
          _ = 16 ^ k * 16 := by ring
      have := ih (n / 16) (Nat.digitChar (n % 16) :: acc) hdiv
      simp only [List.length_cons] at this
      omega

theorem toHexDigits_length_le (n : Nat) (h : n < 2 ^ 32) :
    (toHexDigits n).length ≤ 8 := by
  rw [toHexDigits]
  split
  · simp
  · have := toHexCore_length 8 n [] (by norm_num at h ⊢; omega)
    simpa using this

theorem formatHex8_length (n : Nat) (h : n < 2 ^ 32) : (formatHex8 n).length = 8 := by
  have hle := toHexDigits_length_le n h
  simp only [formatHex8, String.length]
  rw [List.length_append, List.length_replicate]
  omega

theorem digitChar_isLowerHexDigit : ∀ m, m < 16 → isLowerHexDigit (Nat.digitChar m) = true := by
  decide

theorem toHexCore_chars (k : Nat) :
    ∀ (n : Nat) (acc : List Char), n < 16 ^ k →
      (∀ c ∈ acc, isLowerHexDigit c = true) →
      ∀ c ∈ toHexCore n acc, isLowerHexDigit c = true := by
  induction k with
  | zero =>
    intro n acc h hacc
    have : n = 0 := by omega
    subst this
    rw [toHexCore]
    simpa using hacc
  | succ k ih =>
    intro n acc h hacc
    rw [toHexCore]
    split
    · exact hacc
    · rename_i hne
      have hdiv : n / 16 < 16 ^ k := by
        rw [Nat.div_lt_iff_lt_mul (by norm_num)]
        calc n < 16 ^ (k + 1) := h
          _ = 16 ^ k * 16 := by ring
      refine ih (n / 16) (Nat.digitChar (n % 16) :: acc) hdiv ?_
      intro c hc
      rcases List.mem_cons.mp hc with h1 | h1
      · subst h1
        exact digitChar_isLowerHexDigit _ (Nat.mod_lt _ (by norm_num))
      · exact hacc c h1

theorem formatHex8_chars (n : Nat) (h : n < 2 ^ 32) :
    ∀ c ∈ (formatHex8 n).data, isLowerHexDigit c = true := by
  intro c hc
  simp only [formatHex8] at hc
  rcases List.mem_append.mp hc with h1 | h1
  · have := List.eq_of_mem_replicate h1
    subst this
    decide
  · rw [toHexDigits] at h1
    split at h1
    · simp only [List.mem_singleton] at h1
      subst h1
      decide
    · exact toHexCore_chars 8 n [] (by norm_num at h ⊢; omega) (by simp) c h1

/-- C10: the first successful `get_crc` computes the CRC of the file body
read in 400 KiB chunks, renders it as a lowercase eight-hex-digit string,
stores it in `file_hash` and performs one file read; every later call on the
updated description returns the identical string with zero reads. -/
theorem get_crc_memoized (fs : String → Option (List Nat))
    (crcfn : List Nat → Nat → Nat → Nat → Nat) (d : FileDescription)
    (content : List Nat)
    (hnone : d.file_hash = none)
    (hread : fs (full_path_of d) = some content) :
    get_crc fs crcfn d =
      (some (formatHex8 (chunkedCrc crcfn content 0),
             { d with file_hash := some (formatHex8 (chunkedCrc crcfn content 0)) }), 1) ∧
    get_crc fs crcfn { d with file_hash := some (formatHex8 (chunkedCrc crcfn content 0)) } =
      (some (formatHex8 (chunkedCrc crcfn content 0),
             { d with file_hash := some (formatHex8 (chunkedCrc crcfn content 0)) }), 0) ∧
    (formatHex8 (chunkedCrc crcfn content 0)).length = 8 ∧
    ∀ c ∈ (formatHex8 (chunkedCrc crcfn content 0)).data, isLowerHexDigit c = true := by
  have hlt : chunkedCrc crcfn content 0 < 2 ^ 32 :=
    chunkedCrc_lt crcfn content 0 (by norm_num)
  refine ⟨?_, ?_, formatHex8_length _ hlt, formatHex8_chars _ hlt⟩
  · rw [get_crc, hnone, hread]
  · rw [get_crc]

/-- C10 (witness): the memoization theorem on a concrete three-byte file
with a concrete CRC step function. -/
theorem get_crc_memoized_witness :
    fileFixture.file_hash = none ∧
    (fun _ => some [1, 2, 3] : String → Option (List Nat)) (full_path_of fileFixture) =
      some [1, 2, 3] ∧
    (get_crc (fun _ => some [1, 2, 3]) (fun _ c _ l => c + l) fileFixture =
        (some (formatHex8 (chunkedCrc (fun _ c _ l => c + l) [1, 2, 3] 0),
               { fileFixture with
                   file_hash :=
                     some (formatHex8 (chunkedCrc (fun _ c _ l => c + l) [1, 2, 3] 0)) }), 1) ∧
      get_crc (fun _ => some [1, 2, 3]) (fun _ c _ l => c + l)
          { fileFixture with
              file_hash :=
                some (formatHex8 (chunkedCrc (fun _ c _ l => c + l) [1, 2, 3] 0)) } =
        (some (formatHex8 (chunkedCrc (fun _ c _ l => c + l) [1, 2, 3] 0),
               { fileFixture with
                   file_hash :=
                     some (formatHex8 (chunkedCrc (fun _ c _ l => c + l) [1, 2, 3] 0)) }), 0) ∧
      (formatHex8 (chunkedCrc (fun _ c _ l => c + l) [1, 2, 3] 0)).length = 8 ∧
      ∀ c ∈ (formatHex8 (chunkedCrc (fun _ c _ l => c + l) [1, 2, 3] 0)).data,
        isLowerHexDigit c = true) :=
  ⟨rfl, rfl,
   get_crc_memoized (fun _ => some [1, 2, 3]) (fun _ c _ l => c + l) fileFixture [1, 2, 3]
     rfl rfl⟩

end Rune
